import Mathlib

set_option maxRecDepth 40000

/-!
Shallow embedding of the PFE-MATCHER hybrid matching pipeline:
embedding pre-filter (`src/ai_engine/embeddings.py`), match cache and
two-tier scorer (`src/ai_engine/matcher.py`, `src/data_management/database.py`),
project normalizer (`src/ai_engine/project_extractor.py`) and the
content-addressed file store (`src/data_management/file_manager.py`).

Machine floats of the source are modelled as rationals; SQLAlchemy tables as
lists of rows; Python exceptions as `Except`/`Option` values.  String
primitives are re-implemented over `List Char` so that all definitions are
kernel-executable.
-/

/-- Python `str.lower()` restricted to the character-wise case mapping. -/
def lowerStr (s : String) : String := String.mk (s.data.map Char.toLower)

/-- Python `str.strip()`: drop leading and trailing whitespace. -/
def trimChars (cs : List Char) : List Char :=
  ((cs.dropWhile Char.isWhitespace).reverse.dropWhile Char.isWhitespace).reverse

/-- Python `str.strip()` on strings. -/
def trimStr (s : String) : String := String.mk (trimChars s.data)

/-- Python `needle in hay` substring test. -/
def containsStr (hay needle : String) : Bool :=
  (List.range (hay.data.length + 1)).any
    (fun i => ((hay.data.drop i).take needle.data.length) == needle.data)

/-!
## difflib.SequenceMatcher (used by `normalize_projects` for title dedup)

The source calls `SequenceMatcher(None, a, b).ratio()`.  With `isjunk = None`
the junk set `bjunk` is empty, so the junk extension loops of
`find_longest_match` never fire; `autojunk` stays on, purging "popular"
elements from `b2j` when `len(b) >= 200`.
-/

/-- Indices of `c` in `b`, ascending — one entry list of difflib's `b2j`. -/
def smPositions (b : List Char) (c : Char) : List Nat :=
  (List.range b.length).filter (fun j => b.getD j ' ' == c)

/-- `b2j.get(c, [])` after the autojunk purge of popular elements
(`len(b) >= 200` and more than `len(b) // 100 + 1` occurrences). -/
def smB2j (b : List Char) (c : Char) : List Nat :=
  let idxs := smPositions b c
  if b.length ≥ 200 && idxs.length > b.length / 100 + 1 then [] else idxs

/-- Lookup in the `j2len` dictionary of `find_longest_match`, default 0. -/
def smLookup (m : List (Nat × Nat)) (j : Nat) : Nat :=
  match m.find? (fun kv => kv.1 == j) with
  | some kv => kv.2
  | none => 0

/-- One row (fixed `i`) of the `find_longest_match` dynamic program: fold over
the in-range occurrences `js` of `a[i]` in `b`, building the new `j2len`
dictionary and updating the running best `(besti, bestj, bestsize)`.
A strictly larger run is required to displace the best, so ties keep the
earliest `(i, j)` as in the source. -/
def smInner (i : Nat) (j2len : List (Nat × Nat)) (js : List Nat)
    (best : Nat × Nat × Nat) : List (Nat × Nat) × (Nat × Nat × Nat) :=
  js.foldl (fun st j =>
    let prev := if j == 0 then 0 else smLookup j2len (j - 1)
    let k := prev + 1
    let best' := if k > st.2.2.2 then (i + 1 - k, j + 1 - k, k) else st.2
    (st.1 ++ [(j, k)], best')) ([], best)

/-- The dynamic-programming part of `find_longest_match` over
`a[alo:ahi]`, `b[blo:bhi]`. -/
def smDP (a b : List Char) (alo ahi blo bhi : Nat) : Nat × Nat × Nat :=
  ((List.range' alo (ahi - alo)).foldl (fun st i =>
      let js := (smB2j b (a.getD i ' ')).filter (fun j => blo ≤ j && j < bhi)
      smInner i st.1 js st.2)
    ([], (alo, blo, 0))).2

/-- Left extension loop of `find_longest_match` (non-junk variant; the junk
variant never fires since `bjunk = ∅`).  `fuel` is an upper bound on the
number of iterations; the caller passes `besti`, which suffices because
`besti` decreases by one per step. -/
def smExtendLeft (a b : List Char) (alo blo : Nat) :
    Nat → Nat × Nat × Nat → Nat × Nat × Nat
  | 0, st => st
  | fuel + 1, (bi, bj, bs) =>
    if alo < bi && blo < bj && (a.getD (bi - 1) ' ' == b.getD (bj - 1) ' ') then
      smExtendLeft a b alo blo fuel (bi - 1, bj - 1, bs + 1)
    else (bi, bj, bs)

/-- Right extension loop of `find_longest_match`; `fuel = ahi` suffices since
`bi + bs < ahi` is required for each step. -/
def smExtendRight (a b : List Char) (ahi bhi : Nat) :
    Nat → Nat × Nat × Nat → Nat × Nat × Nat
  | 0, st => st
  | fuel + 1, (bi, bj, bs) =>
    if bi + bs < ahi && bj + bs < bhi && (a.getD (bi + bs) ' ' == b.getD (bj + bs) ' ') then
      smExtendRight a b ahi bhi fuel (bi, bj, bs + 1)
    else (bi, bj, bs)

/-- `SequenceMatcher.find_longest_match(alo, ahi, blo, bhi)`. -/
def smFindLongestMatch (a b : List Char) (alo ahi blo bhi : Nat) : Nat × Nat × Nat :=
  let st0 := smDP a b alo ahi blo bhi
  let st1 := smExtendLeft a b alo blo st0.1 st0
  smExtendRight a b ahi bhi ahi st1

/-- Total size of all matching blocks (`sum(k for _, _, k in get_matching_blocks())`).
The work queue of `get_matching_blocks` is modelled with the head as stack top;
only the sum of block sizes is needed for `ratio`, and that sum does not depend
on the processing order or on the final sort/merge of the block list.
`fuel` bounds the number of queue pops; each block found consumes at least one
unit of the at most `min |a| |b|` matchable characters and each pop pushes at
most two sub-regions, so `2 * (|a| + |b|) + 4` pops always suffice. -/
def smTotal (a b : List Char) : Nat → List (Nat × Nat × Nat × Nat) → Nat
  | _, [] => 0
  | 0, _ => 0
  | fuel + 1, (alo, ahi, blo, bhi) :: queue =>
    let m := smFindLongestMatch a b alo ahi blo bhi
    let bi := m.1
    let bj := m.2.1
    let bs := m.2.2
    if bs == 0 then smTotal a b fuel queue
    else
      let q1 := if alo < bi && blo < bj then [(alo, bi, blo, bj)] else []
      let q2 := if bi + bs < ahi && bj + bs < bhi then [(bi + bs, ahi, bj + bs, bhi)] else []
      bs + smTotal a b fuel (q1 ++ q2 ++ queue)

/-- `SequenceMatcher(None, sa, sb).ratio()`: `2 * M / (len(a) + len(b))`,
and 1 when both strings are empty (difflib's `_calculate_ratio`). -/
def ratioSM (sa sb : String) : ℚ :=
  let a := sa.data
  let b := sb.data
  let total := a.length + b.length
  if total == 0 then mkRat 1 1
  else mkRat (2 * (smTotal a b (2 * total + 4) [(0, a.length, 0, b.length)] : Int)) total

example : ratioSM "abcd" "abcd" = mkRat 1 1 := by decide
example : ratioSM "backend api" "frontend internship" = mkRat 1 3 := by decide
example : mkRat 85 100 < ratioSM "backend engineering internship" "backend engineering internship" := by decide

/-!
## Python dict and stable sort primitives
-/

/-- Python dict assignment `m[k] = v`: replace in place when the key exists
(keeping first-insertion order), append otherwise. -/
def dictInsert (m : List (String × α)) (k : String) (v : α) : List (String × α) :=
  if m.any (fun kv => kv.1 == k) then m.map (fun kv => if kv.1 == k then (k, v) else kv)
  else m ++ [(k, v)]

/-- Python dict lookup `m.get(k)`. -/
def dictGet (m : List (String × α)) (k : String) : Option α :=
  (m.find? (fun kv => kv.1 == k)).map (fun kv => kv.2)

/-- Stable insertion: `x` moves past exactly the elements that strictly
precede it, so elements comparing equal keep their original relative order. -/
def pyInsert (le : α → α → Bool) (x : α) : List α → List α
  | [] => [x]
  | y :: ys => if le y x && !(le x y) then y :: pyInsert le x ys else x :: y :: ys

/-- Stable sort with respect to the boolean preorder `le`; agrees with
Python's stable `list.sort` on every total preorder (the output of a stable
sort is unique, so the exact sorting algorithm is immaterial). -/
def pySortBy (le : α → α → Bool) : List α → List α
  | [] => []
  | x :: xs => pyInsert le x (pySortBy le xs)

/-!
## Data model
-/

/-- One project record as handled by `normalize_projects` and the matcher.
Python dict string fields whose absent and empty states are never
distinguished by the code (`title`, `description`, `technologies`,
`application_link`) are plain strings with `""` for "missing"; fields where
the code uses `get` without a default are `Option`s.  `note` models the
`_note` provenance key and `similarity_score` the `similarity_score` key
attached by the pre-filter. -/
structure Project where
  id : Option String := none
  title : String := ""
  description : String := ""
  company : Option String := none
  technologies : String := ""
  reference_id : Option String := none
  email : Option String := none
  application_method : Option String := none
  application_link : String := ""
  note : Option String := none
  similarity_score : Option ℚ := none
deriving DecidableEq

/-- A parsed scoring-backend response: the `overall_score` entry plus the
rest of the JSON payload, which the matcher treats as opaque (`body`). -/
structure RawScore where
  overall_score : Int
  body : String := ""
deriving DecidableEq

/-- A match result dict.  `none` in an `Option` field means the key is
absent from the dict. -/
structure MatchResult where
  overall_score : Int := 0
  body : String := ""
  error : Option String := none
  was_cached : Bool := false
  project_id : Option String := none
  project_title : Option String := none
  company : Option String := none
  reference_id : Option String := none
  email : Option String := none
  application_method : Option String := none
  application_link : Option String := none
  source : Option String := none
deriving DecidableEq

/-- One row of the `match_cache` table (`models.MatchCache`); the
autoincrement surrogate `id` column is implicit in the list position.  The
table carries `UniqueConstraint('cv_hash', 'project_id')`. -/
structure CacheRow where
  cv_hash : String
  project_id : String
  score : Int
  result_json : MatchResult
deriving DecidableEq

abbrev MatchCacheState := List CacheRow

/-!
## Match cache (`database.get_cached_match` / `database.save_cached_match`)
-/

/-- `get_cached_match`: first row matching `(cv_hash, project_id)`, if any. -/
def get_cached_match (cache : MatchCacheState) (h pid : String) : Option MatchResult :=
  (cache.find? (fun r => r.cv_hash == h && r.project_id == pid)).map (fun r => r.result_json)

/-- `save_cached_match` builds a `MatchCache` row with no primary key set and
calls `session.merge(entry)`.  SQLAlchemy's `merge` reconciles by primary key;
the primary key of `MatchCache` is the autoincrement `id`, not
`(cv_hash, project_id)`, so the merge of a key-less row is a plain INSERT.
When a row for the same `(cv_hash, project_id)` already exists the INSERT
violates `uix_cv_project`, the `except` clause swallows the error and the
session is rolled back: the table is left unchanged.  Hence: append when the
key is fresh, no-op when it is occupied. -/
def save_cached_match (cache : MatchCacheState) (h pid : String) (result : MatchResult) :
    MatchCacheState :=
  if cache.any (fun r => r.cv_hash == h && r.project_id == pid) then cache
  else cache ++ [⟨h, pid, result.overall_score, result⟩]

/-!
## Scorer (`matcher.match_project_to_cv`)
-/

/-- Metadata attachment of the success branch of `match_project_to_cv`
(source lines 77-87). -/
def enrichResult (raw : RawScore) (p : Project) (usedFallback : Bool) : MatchResult :=
  { overall_score := raw.overall_score
    body := raw.body
    was_cached := false
    project_id := p.id
    project_title := some p.title
    company := p.company
    reference_id := some (p.reference_id.getD "")
    email := some (p.email.getD "")
    application_method := some (p.application_method.getD "")
    application_link := some p.application_link
    source := some (if usedFallback then "perplexity" else "gemini") }

/-- The terminal sentinel returned when both backends fail
(source lines 96-104): score 0, an error message, and only the
`project_id` / `project_title` / `company` keys of the project. -/
def sentinelResult (p : Project) : MatchResult :=
  { overall_score := 0
    error := some "Failed to generate match (Both Gemini and Fallback failed)"
    was_cached := false
    project_id := p.id
    project_title := some p.title
    company := p.company }

structure MatchOutcome where
  result : MatchResult
  cache : MatchCacheState
  backendCalled : Bool
deriving DecidableEq

/-- `match_project_to_cv` with the CV hash already computed (the caller
`batch_match_projects` always passes it).  `gemini` is the outcome of
`GeminiClient.generate_structured_response` (`none` for an exception, an
empty or a `None` return — all handled identically by `if not result`),
`perplexity` the outcome of the fallback chain including its fence
stripping and JSON parse.  `backendCalled` records whether any scoring
backend was consulted. -/
def match_project_to_cv (gemini perplexity : Option RawScore) (p : Project)
    (cvHash : String) (cache : MatchCacheState) : MatchOutcome :=
  let pid := p.id.getD ""
  match get_cached_match cache cvHash pid with
  | some r => ⟨{ r with was_cached := true }, cache, false⟩
  | none =>
    match gemini with
    | some raw =>
      let res := enrichResult raw p false
      ⟨res, save_cached_match cache cvHash pid res, true⟩
    | none =>
      match perplexity with
      | some raw =>
        let res := enrichResult raw p true
        ⟨res, save_cached_match cache cvHash pid res, true⟩
      | none => ⟨sentinelResult p, cache, true⟩

/-!
## Hybrid orchestrator (`matcher.batch_match_projects`), detailed-scoring part
-/

structure LoopResult where
  results : List MatchResult
  cache : MatchCacheState
  api_calls : Nat
  cache_hits : Nat
deriving DecidableEq

/-- The scoring loop of `batch_match_projects`: score every candidate in
order, threading the cache and counting cache hits versus fresh API calls.
The fixed `time.sleep` pacing after every tenth fresh call is a real-time
effect with no influence on the data flow and is not modelled. -/
def matchLoop (gemini perplexity : Project → Option RawScore) (cvHash : String) :
    List Project → MatchCacheState → LoopResult
  | [], cache => ⟨[], cache, 0, 0⟩
  | p :: rest, cache =>
    let o := match_project_to_cv (gemini p) (perplexity p) p cvHash cache
    let lr := matchLoop gemini perplexity cvHash rest o.cache
    ⟨o.result :: lr.results, lr.cache,
      (if o.result.was_cached then 0 else 1) + lr.api_calls,
      (if o.result.was_cached then 1 else 0) + lr.cache_hits⟩

/-- `batch_match_projects` on an already pre-filtered candidate list: keep a
result iff `score >= min_score or "error" in match_result`, then sort by
score descending (stable).  The source performs the filter inside the same
loop, which is equivalent; the `_metrics` dict attached to `matches[0]` for
the UI is not modelled. -/
def batch_match_projects (gemini perplexity : Project → Option RawScore) (cvHash : String)
    (candidates : List Project) (min_score : Int) (cache : MatchCacheState) : LoopResult :=
  let lr := matchLoop gemini perplexity cvHash candidates cache
  let kept := lr.results.filter (fun r => min_score ≤ r.overall_score || r.error.isSome)
  ⟨pySortBy (fun a b => decide (b.overall_score ≤ a.overall_score)) kept,
    lr.cache, lr.api_calls, lr.cache_hits⟩

/-!
## Embedding index (`embeddings.EmbeddingEngine`)

Vectors are lists of rationals; `encode` stands for the sentence-transformer
model plus its write-through persistence cache (`embed_cv` /
`embed_projects_batch` return the cached vector when present and the encoded
one otherwise — either way a vector per content string), and may fail like
any backend call.  `simFn` stands for the floating-point cosine kernel
`np.dot(a, b) / (|a| * |b|)` of `compute_similarities`, whose irrational
square roots have no exact rational counterpart; every claim proved below
holds for an arbitrary kernel.
-/

abbrev EmbVec := List ℚ

/-- The text embedded for one project:
`f"{title} {description} {technologies}"`. -/
def projectContent (p : Project) : String :=
  p.title ++ " " ++ p.description ++ " " ++ p.technologies

/-- `str(p.get('id', ''))` with the falsy guard of `embed_projects_batch`:
projects without a truthy id are skipped. -/
def truthyId (p : Project) : Option String :=
  match p.id with
  | some s => if s == "" then none else some s
  | none => none

/-- `str(p.get('id'))` as used to key `project_map` in `prefilter_projects`;
Python renders a missing id as `"None"`. -/
def pyStrId (p : Project) : String :=
  match p.id with
  | some s => s
  | none => "None"

/-- `embed_projects_batch`: one embedding per project with a truthy id,
collected into a dict keyed by id; any backend failure aborts the batch. -/
def embed_projects_batch (encode : String → Except String EmbVec) (projects : List Project) :
    Except String (List (String × EmbVec)) :=
  projects.foldlM (fun acc p =>
    match truthyId p with
    | none => pure acc
    | some pid => do
      let v ← encode (projectContent p)
      pure (dictInsert acc pid v)) []

/-- `compute_similarities`: score every entry of the embedding dict against
the CV vector and sort descending by similarity (`scores.sort(key=..., reverse=True)`). -/
def compute_similarities (simFn : EmbVec → EmbVec → ℚ) (cv : EmbVec)
    (embs : List (String × EmbVec)) : List (String × ℚ) :=
  pySortBy (fun x y => decide (y.2 ≤ x.2)) (embs.map (fun pe => (pe.1, simFn cv pe.2)))

/-- `project_map = {str(p.get('id')): p for p in projects}`. -/
def buildProjectMap (projects : List Project) : List (String × Project) :=
  projects.foldl (fun m p => dictInsert m (pyStrId p) p) []

/-- The selection loop of `prefilter_projects`: walk the descending score
list, skip scores below the threshold, append the mapped project with its
`similarity_score` attached, and break once `len(filtered) >= top_k`
(checked after the append). -/
def prefilterLoop (pmap : List (String × Project)) (top_k : Int) (τ : ℚ) :
    List (String × ℚ) → List Project → List Project
  | [], acc => acc
  | (pid, score) :: rest, acc =>
    if score < τ then prefilterLoop pmap top_k τ rest acc
    else
      let acc' :=
        match dictGet pmap pid with
        | some p => acc ++ [{ p with similarity_score := some score }]
        | none => acc
      if top_k ≤ (acc'.length : Int) then acc'
      else prefilterLoop pmap top_k τ rest acc'

/-- `prefilter_projects`: embed the CV, embed the projects, rank, select; on
any failure inside the `try` block, fail open and return the input list. -/
def prefilter_projects (encode : String → Except String EmbVec)
    (simFn : EmbVec → EmbVec → ℚ) (cv_text : String) (projects : List Project)
    (top_k : Int) (τ : ℚ) : List Project :=
  match encode cv_text with
  | Except.error _ => projects
  | Except.ok cv =>
    match embed_projects_batch encode projects with
    | Except.error _ => projects
    | Except.ok embs =>
      prefilterLoop (buildProjectMap projects) top_k τ
        (compute_similarities simFn cv embs) []

/-!
## Project normalizer (`project_extractor.normalize_projects`)
-/

/-- Characters allowed in the URL body: the negated class `[^\s<>"]`. -/
def urlChar (c : Char) : Bool := !(c.isWhitespace || c == '<' || c == '>' || c == '\"')

/-- Try one alternative of the URL pattern at the current position: a
case-insensitive literal head followed by one or more `urlChar`s; returns
the length of the match. -/
def tryPatCI (pat : String) (cs : List Char) : Option Nat :=
  let pl := pat.data
  if (cs.take pl.length).map Char.toLower == pl then
    let body := (cs.drop pl.length).takeWhile urlChar
    if body.length == 0 then none else some (pl.length + body.length)
  else none

/-- All alternatives of
`(https?://[^\s<>"]+|www\.[^\s<>"]+|bit\.ly/[^\s<>"]+|forms\.gle/[^\s<>"]+)`
at one position, in the order the regex engine tries them. -/
def tryUrlAt (cs : List Char) : Option Nat :=
  (tryPatCI "https://" cs).or ((tryPatCI "http://" cs).or
    ((tryPatCI "www." cs).or ((tryPatCI "bit.ly/" cs).or (tryPatCI "forms.gle/" cs))))

/-- `url_pattern.search`: leftmost match wins; returns `group(0)` in its
original case. -/
def urlSearch : List Char → Option (List Char)
  | [] => none
  | c :: rest =>
    match tryUrlAt (c :: rest) with
    | some n => some ((c :: rest).take n)
    | none => urlSearch rest

/-- The per-record cleaning of the first pass (after the validity check):
strip title and description, regex-recover a missing application link from
the description, strip a present link and reference id, and assign a fresh
identifier.  `uuid ctr` models `str(uuid.uuid4())` as a function of how many
valid records were seen before. -/
def cleanRecord (uuid : Nat → String) (ctr : Nat) (p : Project) : Project :=
  let p1 := { p with title := trimStr p.title, description := trimStr p.description }
  let p2 :=
    if p1.application_link == "" then
      match urlSearch p1.description.data with
      | some url =>
        { p1 with application_link := String.mk url, application_method := some "link" }
      | none => p1
    else p1
  let p3 :=
    if p2.application_link == "" then p2
    else { p2 with application_link := trimStr p2.application_link }
  let p4 :=
    match p3.reference_id with
    | some r => if r == "" then p3 else { p3 with reference_id := some (trimStr r) }
    | none => p3
  { p4 with id := some (uuid ctr) }

/-- One iteration of the first pass over `(cleaned_projects, seen_titles,
uuid counter)`: drop records with a falsy title or description, clean the
rest, and discard a record whose lowercased title has `SequenceMatcher`
ratio strictly above 0.85 with any previously accepted title. -/
def normStep (uuid : Nat → String) (st : List Project × List String × Nat) (p : Project) :
    List Project × List String × Nat :=
  if p.title == "" || p.description == "" then st
  else
    let p5 := cleanRecord uuid st.2.2 p
    if st.2.1.any (fun t => mkRat 85 100 < ratioSM (lowerStr p5.title) (lowerStr t)) then
      (st.1, st.2.1, st.2.2 + 1)
    else (st.1 ++ [p5], st.2.1 ++ [p5.title], st.2.2 + 1)

def firstPassState (uuid : Nat → String) (ps : List Project) :
    List Project × List String × Nat :=
  ps.foldl (normStep uuid) ([], [], 0)

/-- The deduplicated record list after the first pass. -/
def firstPass (uuid : Nat → String) (ps : List Project) : List Project :=
  (firstPassState uuid ps).1

/-- The `seen_titles` list after the first pass. -/
def seenTitles (uuid : Nat → String) (ps : List Project) : List String :=
  (firstPassState uuid ps).2.1

/-- How many records of `ps` passed the validity check (= how many uuids
were consumed). -/
def validCount (uuid : Nat → String) (ps : List Project) : Nat :=
  (firstPassState uuid ps).2.2

/-- The global portal link of the second pass: the first accepted
application link whose lowercasing contains one of the portal keywords. -/
def portalLink (cleaned : List Project) : Option String :=
  let all_links := cleaned.filterMap
    (fun p => if p.application_link == "" then none else some p.application_link)
  all_links.find? (fun l =>
    (["stages", "recrutement", "forms", "career", "apply"]).any
      (fun k => containsStr (lowerStr l) k))

/-- Back-fill applied to one record when a portal link was found. -/
def backfill (l : String) (p : Project) : Project :=
  if p.application_link == "" then
    { p with application_link := l, application_method := some "link",
             note := some "Inferred from global context" }
  else p

/-- The second pass of `normalize_projects`. -/
def propagate (cleaned : List Project) : List Project :=
  match portalLink cleaned with
  | some l => cleaned.map (backfill l)
  | none => cleaned

/-- `normalize_projects`: validity filter, cleaning, dedup, then global link
propagation. -/
def normalize_projects (uuid : Nat → String) (ps : List Project) : List Project :=
  propagate (firstPass uuid ps)

/-!
## Content-addressed store (`file_manager.FileManager.save_file`)
-/

abbrev Bytes := List Nat

/-- One row of `uploaded_documents` (`models.UploadedDocument`); the columns
not touched by the claims (size, mime, timestamps) are omitted. -/
structure DocRecord where
  id : Nat
  file_hash : String
  original_filename : String
  file_path : String
  document_type : String
deriving DecidableEq

/-- Store state: the autoincrement id counter, the `uploaded_documents`
table, and the set of file paths present under the storage directory. -/
structure StoreState where
  nextId : Nat
  records : List DocRecord
  disk : List String
deriving DecidableEq

/-- `Path(name).suffix` for a bare file name: CPython returns `name[i:]` for
the last dot index `i` iff `0 < i < len(name) - 1`, else `""`. -/
def pySuffix (name : String) : String :=
  let cs := name.data
  match ((List.range cs.length).filter (fun i => cs.getD i ' ' == '.')).getLast? with
  | some i => if 0 < i && i < cs.length - 1 then String.mk (cs.drop i) else ""
  | none => ""

/-- The shard directory `hash[:2]/hash[2:4]/` (relative to the storage dir). -/
def shardDir (h : String) : String :=
  String.mk (h.data.take 2) ++ "/" ++ String.mk ((h.data.drop 2).take 2) ++ "/"

/-- The storage path `shard1/shard2/{hash}{ext}`. -/
def storagePath (h : String) (original : String) : String :=
  shardDir h ++ h ++ pySuffix original

/-- `save_file`.  `hashFn` stands for SHA-256 of the content; `writeOk`
injects the outcome of the byte write to disk.  When a record with the hash
exists the bytes are not written and the existing id is returned.  Otherwise
`open(path, "wb")` creates (or truncates) the file — so the path is present
on disk even when the copy then fails — and only after a successful write is
the record row inserted and committed; on failure the session is rolled back
and `None` returned. -/
def save_file (hashFn : Bytes → String) (writeOk : Bool) (s : StoreState)
    (content : Bytes) (original : String) (dtype : String) : Option Nat × StoreState :=
  let h := hashFn content
  match s.records.find? (fun r => r.file_hash == h) with
  | some r => (some r.id, s)
  | none =>
    let path := storagePath h original
    let disk' := if path ∈ s.disk then s.disk else s.disk ++ [path]
    if writeOk then
      (some s.nextId,
        ⟨s.nextId + 1, s.records ++ [⟨s.nextId, h, original, path, dtype⟩], disk'⟩)
    else (none, { s with disk := disk' })

/-- All files on disk that belong to hash `h` (they live in `h`'s shard
directory and their name starts with `h`). -/
def filesForHash (s : StoreState) (h : String) : List String :=
  s.disk.filter (fun path => (shardDir h ++ h).data.isPrefixOf path.data)

/-- All records for hash `h`. -/
def recordsForHash (s : StoreState) (h : String) : List DocRecord :=
  s.records.filter (fun r => r.file_hash == h)


/-!
## Helper lemmas
-/

theorem mem_pyInsert {α : Type} {le : α → α → Bool} (x a : α) (l : List α) :
    a ∈ pyInsert le x l ↔ a = x ∨ a ∈ l := by
  induction l with
  | nil => simp [pyInsert]
  | cons y ys ih =>
    cases h : (le y x && !(le x y)) with
    | true =>
      simp only [pyInsert, h, if_true, List.mem_cons, ih]
      tauto
    | false => simp [pyInsert, h]

theorem mem_pySortBy {α : Type} {le : α → α → Bool} (a : α) (l : List α) :
    a ∈ pySortBy le l ↔ a ∈ l := by
  induction l with
  | nil => simp [pySortBy]
  | cons x xs ih => simp [pySortBy, mem_pyInsert, ih]

theorem pairwise_pyInsert {α : Type} {le : α → α → Bool}
    (total : ∀ a b, (le a b || le b a) = true)
    (trans : ∀ a b c, le a b = true → le b c = true → le a c = true)
    (x : α) (l : List α) (hl : l.Pairwise (fun a b => le a b = true)) :
    (pyInsert le x l).Pairwise (fun a b => le a b = true) := by
  induction l with
  | nil => simp [pyInsert]
  | cons y ys ih =>
    rw [List.pairwise_cons] at hl
    obtain ⟨hy, hys⟩ := hl
    cases h : (le y x && !(le x y)) with
    | true =>
      simp only [pyInsert, h, if_true]
      rw [List.pairwise_cons]
      refine ⟨?_, ih hys⟩
      intro b hb
      rw [mem_pyInsert] at hb
      rcases hb with rfl | hb
      · exact ((Bool.and_eq_true _ _).mp h).1
      · exact hy b hb
    | false =>
      have hxy : le x y = true := by
        cases h1 : le x y with
        | true => rfl
        | false =>
          exfalso
          cases h2 : le y x with
          | true => simp [h1, h2] at h
          | false =>
            have ht := total y x
            rw [h1, h2] at ht
            exact Bool.false_ne_true ht
      have hstep : pyInsert le x (y :: ys) = x :: y :: ys := by
        rw [pyInsert, if_neg]
        rw [h]
        exact Bool.false_ne_true
      rw [hstep, List.pairwise_cons]
      refine ⟨?_, List.pairwise_cons.mpr ⟨hy, hys⟩⟩
      intro b hb
      rcases List.mem_cons.mp hb with rfl | hb
      · exact hxy
      · exact trans x y b hxy (hy b hb)

theorem pairwise_pySortBy {α : Type} {le : α → α → Bool}
    (total : ∀ a b, (le a b || le b a) = true)
    (trans : ∀ a b c, le a b = true → le b c = true → le a c = true)
    (l : List α) : (pySortBy le l).Pairwise (fun a b => le a b = true) := by
  induction l with
  | nil => simp [pySortBy]
  | cons x xs ih => exact pairwise_pyInsert total trans x _ ih

theorem compute_similarities_sorted (simFn : EmbVec → EmbVec → ℚ) (cv : EmbVec)
    (embs : List (String × EmbVec)) :
    (compute_similarities simFn cv embs).Pairwise (fun x y => y.2 ≤ x.2) := by
  have h := @pairwise_pySortBy (String × ℚ) (fun x y => decide (y.2 ≤ x.2))
    (fun a b => by
      rcases le_total b.2 a.2 with h1 | h1 <;> simp [h1])
    (fun a b c hab hbc => by
      simp only [decide_eq_true_eq] at hab hbc ⊢
      exact le_trans hbc hab)
    ((embs.map (fun pe => (pe.1, simFn cv pe.2))))
  exact h.imp (fun hb => of_decide_eq_true hb)

theorem prefilterLoop_length_le (pmap : List (String × Project)) (k : Int) (τ : ℚ) :
    ∀ (scores : List (String × ℚ)) (acc : List Project),
      (acc.length : Int) < k → ((prefilterLoop pmap k τ scores acc).length : Int) ≤ k := by
  intro scores
  induction scores with
  | nil => intro acc h; simpa [prefilterLoop] using le_of_lt h
  | cons sc rest ih =>
    intro acc h
    obtain ⟨pid, score⟩ := sc
    by_cases hτ : score < τ
    · simpa [prefilterLoop, hτ] using ih acc h
    · simp only [prefilterLoop, if_neg hτ]
      cases hfind : dictGet pmap pid with
      | some p =>
        simp only [hfind]
        by_cases hk : k ≤ (((acc ++ [{ p with similarity_score := some score }]).length : Nat) : Int)
        · simp only [if_pos hk]
          simp only [List.length_append, List.length_cons, List.length_nil]
          push_cast
          omega
        · simp only [if_neg hk]
          exact ih _ (lt_of_not_le hk)
      | none =>
        simp only [hfind]
        by_cases hk : k ≤ ((acc.length : Nat) : Int)
        · simp only [if_pos hk]
          omega
        · simp only [if_neg hk]
          exact ih _ h

theorem prefilterLoop_threshold (pmap : List (String × Project)) (k : Int) (τ : ℚ) :
    ∀ (scores : List (String × ℚ)) (acc : List Project),
      (∀ q ∈ acc, ∃ s, q.similarity_score = some s ∧ τ ≤ s) →
      ∀ q ∈ prefilterLoop pmap k τ scores acc,
        ∃ s, q.similarity_score = some s ∧ τ ≤ s := by
  intro scores
  induction scores with
  | nil => intro acc hacc; simpa [prefilterLoop] using hacc
  | cons sc rest ih =>
    intro acc hacc
    obtain ⟨pid, score⟩ := sc
    by_cases hτ : score < τ
    · simpa [prefilterLoop, hτ] using ih acc hacc
    · simp only [prefilterLoop, if_neg hτ]
      have hacc' : ∀ (p : Project),
          ∀ q ∈ acc ++ [{ p with similarity_score := some score }],
            ∃ s, q.similarity_score = some s ∧ τ ≤ s := by
        intro p q hq
        rcases List.mem_append.mp hq with hq | hq
        · exact hacc q hq
        · rcases List.mem_singleton.mp hq with rfl
          exact ⟨score, rfl, le_of_not_lt hτ⟩
      cases hfind : dictGet pmap pid with
      | some p =>
        simp only [hfind]
        by_cases hk : k ≤ (((acc ++ [{ p with similarity_score := some score }]).length : Nat) : Int)
        · simp only [if_pos hk]
          exact hacc' p
        · simp only [if_neg hk]
          exact ih _ (hacc' p)
      | none =>
        simp only [hfind]
        by_cases hk : k ≤ ((acc.length : Nat) : Int)
        · simp only [if_pos hk]
          exact hacc
        · simp only [if_neg hk]
          exact ih _ hacc

theorem prefilterLoop_sorted (pmap : List (String × Project)) (k : Int) (τ : ℚ) :
    ∀ (scores : List (String × ℚ)) (acc : List Project),
      scores.Pairwise (fun x y => y.2 ≤ x.2) →
      acc.Pairwise (fun a b => b.similarity_score.getD 0 ≤ a.similarity_score.getD 0) →
      (∀ a ∈ acc, ∀ x ∈ scores, x.2 ≤ a.similarity_score.getD 0) →
      (prefilterLoop pmap k τ scores acc).Pairwise
        (fun a b => b.similarity_score.getD 0 ≤ a.similarity_score.getD 0) := by
  intro scores
  induction scores with
  | nil => intro acc _ hacc _; simpa [prefilterLoop] using hacc
  | cons sc rest ih =>
    intro acc hsorted hacc hbound
    obtain ⟨pid, score⟩ := sc
    rw [List.pairwise_cons] at hsorted
    obtain ⟨hhead, hrest⟩ := hsorted
    have hbound_rest : ∀ a ∈ acc, ∀ x ∈ rest, x.2 ≤ a.similarity_score.getD 0 :=
      fun a ha x hx => hbound a ha x (List.mem_cons_of_mem _ hx)
    by_cases hτ : score < τ
    · simpa [prefilterLoop, hτ] using ih acc hrest hacc hbound_rest
    · simp only [prefilterLoop, if_neg hτ]
      have hpair' : ∀ (p : Project),
          (acc ++ [{ p with similarity_score := some score }]).Pairwise
            (fun (a b : Project) => b.similarity_score.getD 0 ≤ a.similarity_score.getD 0) := by
        intro p
        rw [List.pairwise_append]
        refine ⟨hacc, List.pairwise_singleton _ _, ?_⟩
        intro a ha b hb
        rcases List.mem_singleton.mp hb with rfl
        simpa using hbound a ha (pid, score) (List.mem_cons_self _ _)
      have hbound' : ∀ (p : Project),
          ∀ a ∈ acc ++ [{ p with similarity_score := some score }],
            ∀ x ∈ rest, x.2 ≤ a.similarity_score.getD 0 := by
        intro p a ha x hx
        rcases List.mem_append.mp ha with ha | ha
        · exact hbound_rest a ha x hx
        · rcases List.mem_singleton.mp ha with rfl
          simpa using hhead x hx
      cases hfind : dictGet pmap pid with
      | some p =>
        simp only [hfind]
        by_cases hk : k ≤ (((acc ++ [{ p with similarity_score := some score }]).length : Nat) : Int)
        · simp only [if_pos hk]
          exact hpair' p
        · simp only [if_neg hk]
          exact ih _ hrest (hpair' p) (hbound' p)
      | none =>
        simp only [hfind]
        by_cases hk : k ≤ ((acc.length : Nat) : Int)
        · simp only [if_pos hk]
          exact hacc
        · simp only [if_neg hk]
          exact ih _ hrest hacc hbound_rest

/-- Reduction of `prefilter_projects` on the success path. -/
theorem prefilter_projects_ok {encode : String → Except String EmbVec}
    {simFn : EmbVec → EmbVec → ℚ} {cv_text : String} {projects : List Project}
    {top_k : Int} {τ : ℚ} {cv : EmbVec} {embs : List (String × EmbVec)}
    (hcv : encode cv_text = Except.ok cv)
    (hembs : embed_projects_batch encode projects = Except.ok embs) :
    prefilter_projects encode simFn cv_text projects top_k τ =
      prefilterLoop (buildProjectMap projects) top_k τ
        (compute_similarities simFn cv embs) [] := by
  rw [prefilter_projects, hcv, hembs]

/-- Claim C1: on the success path the pre-filter keeps at most `top_k` projects
(for `top_k ≥ 1`; the k = 0 case fails, see the counterexample), every kept
project carries an attached similarity at least the threshold, and the kept
list is ordered by similarity descending. -/
theorem c1_prefilter_bounds (encode : String → Except String EmbVec)
    (simFn : EmbVec → EmbVec → ℚ) (cv_text : String) (projects : List Project)
    (top_k : Int) (τ : ℚ) (cv : EmbVec) (embs : List (String × EmbVec))
    (hk : 1 ≤ top_k)
    (hcv : encode cv_text = Except.ok cv)
    (hembs : embed_projects_batch encode projects = Except.ok embs) :
    ((prefilter_projects encode simFn cv_text projects top_k τ).length : Int) ≤ top_k
    ∧ (∀ q ∈ prefilter_projects encode simFn cv_text projects top_k τ,
        ∃ s, q.similarity_score = some s ∧ τ ≤ s)
    ∧ (prefilter_projects encode simFn cv_text projects top_k τ).Pairwise
        (fun a b => b.similarity_score.getD 0 ≤ a.similarity_score.getD 0) := by
  rw [prefilter_projects_ok hcv hembs]
  refine ⟨?_, ?_, ?_⟩
  · exact prefilterLoop_length_le _ _ _ _ [] (by simpa using hk)
  · exact prefilterLoop_threshold _ _ _ _ [] (by simp)
  · exact prefilterLoop_sorted _ _ _ _ []
      (compute_similarities_sorted simFn cv embs) (by simp) (by simp)

/-- Witness for `c1_prefilter_bounds` at a concrete input. -/
theorem c1_prefilter_bounds_witness :
    (1 : Int) ≤ 1
    ∧ ((prefilter_projects (fun _ => Except.ok [mkRat 1 1]) (fun _ _ => mkRat 1 1) "cv"
        [{ id := some "1", title := "t", description := "d" }] 1 (mkRat 0 1)).length : Int) ≤ 1 :=
  ⟨by decide,
    (c1_prefilter_bounds (fun _ => Except.ok [mkRat 1 1]) (fun _ _ => mkRat 1 1) "cv"
      [{ id := some "1", title := "t", description := "d" }] 1 (mkRat 0 1)
      [mkRat 1 1] [("1", [mkRat 1 1])] (by decide) rfl rfl).1⟩

/-- Claim C1, counterexample: with `top_k = 0` the loop appends a passing project
before checking the bound, so the pre-filter returns 1 > 0 projects. -/
theorem c1_topk_zero_counterexample :
    (prefilter_projects (fun _ => Except.ok [mkRat 1 1]) (fun _ _ => mkRat 1 1) "cv"
      [{ id := some "1", title := "t", description := "d" }] 0 (mkRat 0 1)).length = 1
    ∧ ¬ (((prefilter_projects (fun _ => Except.ok [mkRat 1 1]) (fun _ _ => mkRat 1 1) "cv"
        [{ id := some "1", title := "t", description := "d" }] 0 (mkRat 0 1)).length : Int) ≤ 0) := by
  constructor
  · rfl
  · decide

/-- Claim C2: if embedding the candidate or embedding the project batch fails, the
pre-filter fails open and returns the input project list unchanged. -/
theorem c2_prefilter_fails_open (encode : String → Except String EmbVec)
    (simFn : EmbVec → EmbVec → ℚ) (cv_text : String) (projects : List Project)
    (top_k : Int) (τ : ℚ)
    (hfail : (∃ e, encode cv_text = Except.error e) ∨
      (∃ e, embed_projects_batch encode projects = Except.error e)) :
    prefilter_projects encode simFn cv_text projects top_k τ = projects := by
  rcases hfail with ⟨e, he⟩ | ⟨e, he⟩
  · rw [prefilter_projects, he]
  · cases hcv : encode cv_text with
    | error e' => rw [prefilter_projects, hcv]
    | ok cv => rw [prefilter_projects, hcv, he]

/-- Witness for `c2_prefilter_fails_open` at a concrete failing backend. -/
theorem c2_prefilter_fails_open_witness :
    prefilter_projects (fun _ => Except.error "backend down") (fun _ _ => mkRat 1 1) "cv"
      [{ id := some "1", title := "t", description := "d" }] 20 (mkRat 30 100) =
      [{ id := some "1", title := "t", description := "d" }] :=
  c2_prefilter_fails_open (fun _ => Except.error "backend down") (fun _ _ => mkRat 1 1) "cv"
    [{ id := some "1", title := "t", description := "d" }] 20 (mkRat 30 100)
    (Or.inl ⟨"backend down", rfl⟩)

theorem get_cached_match_eq_none {cache : MatchCacheState} {h pid : String} :
    get_cached_match cache h pid = none ↔
      cache.find? (fun r => r.cv_hash == h && r.project_id == pid) = none := by
  rw [get_cached_match]
  exact Option.map_eq_none'

theorem save_cached_match_of_fresh {cache : MatchCacheState} {h pid : String}
    {R : MatchResult}
    (hnone : cache.find? (fun r => r.cv_hash == h && r.project_id == pid) = none) :
    save_cached_match cache h pid R = cache ++ [⟨h, pid, R.overall_score, R⟩] := by
  rw [save_cached_match, if_neg]
  intro hany
  rcases List.any_eq_true.mp hany with ⟨r, hr, hpred⟩
  exact (List.find?_eq_none.mp hnone r hr) hpred

/-- Claim C3, code-level evidence: `save_cached_match` does not upsert.  Writing
result 10 and then result 20 for the same `(cv_hash, project_id)` leaves a
single row that still holds the FIRST result — the second `merge` issues an
INSERT that violates the unique constraint and is silently rolled back —
while the spec requires write-or-replace with the most recent value. -/
theorem c3_second_save_is_dropped :
    get_cached_match
        (save_cached_match (save_cached_match [] "h" "p" { overall_score := 10 })
          "h" "p" { overall_score := 20 }) "h" "p" = some { overall_score := 10 }
    ∧ ((save_cached_match (save_cached_match [] "h" "p" { overall_score := 10 })
          "h" "p" { overall_score := 20 }).filter
        (fun r => r.cv_hash == "h" && r.project_id == "p")).length = 1
    ∧ ({ overall_score := 10 } : MatchResult) ≠ { overall_score := 20 } := by
  refine ⟨rfl, rfl, ?_⟩
  decide

/-- Claim C4: cache round trip.  Storing `R` under a fresh `(h, pid)` key makes a
lookup of `(h, pid)` return exactly `R` while `(h, other_pid)` and
`(other_h, pid)` still miss; and a cache hit makes `match_project_to_cv`
return the stored result tagged `was_cached := true` without touching the
cache or calling any scoring backend. -/
theorem c4_cache_round_trip :
    (∀ (cache : MatchCacheState) (h pid oh opid : String) (R : MatchResult),
      opid ≠ pid → oh ≠ h →
      get_cached_match cache h pid = none →
      get_cached_match cache h opid = none →
      get_cached_match cache oh pid = none →
        get_cached_match (save_cached_match cache h pid R) h pid = some R
        ∧ get_cached_match (save_cached_match cache h pid R) h opid = none
        ∧ get_cached_match (save_cached_match cache h pid R) oh pid = none)
    ∧ (∀ (g pf : Option RawScore) (p : Project) (cvHash : String)
        (cache : MatchCacheState) (r : MatchResult),
        get_cached_match cache cvHash (p.id.getD "") = some r →
          match_project_to_cv g pf p cvHash cache =
            ⟨{ r with was_cached := true }, cache, false⟩) := by
  constructor
  · intro cache h pid oh opid R hop hoh h1 h2 h3
    have h1' := get_cached_match_eq_none.mp h1
    rw [save_cached_match_of_fresh h1']
    refine ⟨?_, ?_, ?_⟩
    · rw [get_cached_match, List.find?_append, h1']
      simp [List.find?]
    · rw [get_cached_match, List.find?_append, get_cached_match_eq_none.mp h2]
      have hne : (pid == opid) = false := beq_eq_false_iff_ne.mpr (Ne.symm hop)
      simp [List.find?, hne]
    · rw [get_cached_match, List.find?_append, get_cached_match_eq_none.mp h3]
      have hne : (h == oh) = false := beq_eq_false_iff_ne.mpr (Ne.symm hoh)
      simp [List.find?, hne]
  · intro g pf p cvHash cache r hhit
    simp only [match_project_to_cv, hhit]

/-- Witness for `c4_cache_round_trip` at concrete inputs. -/
theorem c4_cache_round_trip_witness :
    get_cached_match (save_cached_match [] "h" "p" { overall_score := 10 }) "h" "p" =
      some { overall_score := 10 }
    ∧ match_project_to_cv (some { overall_score := 50 }) none { id := some "p" } "h"
        [⟨"h", "p", 10, { overall_score := 10 }⟩] =
      ⟨{ ({ overall_score := 10 } : MatchResult) with was_cached := true },
        [⟨"h", "p", 10, { overall_score := 10 }⟩], false⟩ :=
  ⟨(c4_cache_round_trip.1 [] "h" "p" "g" "q" { overall_score := 10 }
      (by decide) (by decide) rfl rfl rfl).1,
    c4_cache_round_trip.2 (some { overall_score := 50 }) none { id := some "p" } "h"
      [⟨"h", "p", 10, { overall_score := 10 }⟩] { overall_score := 10 } rfl⟩

/-- Claim C5 (amended): when the cache misses and both backends fail,
`match_project_to_cv` returns (never raises) the sentinel: score 0, an error
message, and the project's id, title and company — but not its reference id,
contact email or application link, which the failure branch does not attach. -/
theorem c5_sentinel_on_double_failure (p : Project) (cvHash : String)
    (cache : MatchCacheState)
    (hmiss : get_cached_match cache cvHash (p.id.getD "") = none) :
    (match_project_to_cv none none p cvHash cache).result = sentinelResult p
    ∧ (sentinelResult p).overall_score = 0
    ∧ (sentinelResult p).error =
        some "Failed to generate match (Both Gemini and Fallback failed)"
    ∧ (sentinelResult p).project_id = p.id
    ∧ (sentinelResult p).project_title = some p.title
    ∧ (sentinelResult p).company = p.company
    ∧ (sentinelResult p).reference_id = none
    ∧ (sentinelResult p).email = none
    ∧ (sentinelResult p).application_link = none := by
  refine ⟨?_, rfl, rfl, rfl, rfl, rfl, rfl, rfl, rfl⟩
  simp only [match_project_to_cv, hmiss]

/-- Witness for `c5_sentinel_on_double_failure` at a concrete input. -/
theorem c5_sentinel_on_double_failure_witness :
    (match_project_to_cv none none { id := some "1", title := "T" } "h" []).result =
      sentinelResult { id := some "1", title := "T" } :=
  (c5_sentinel_on_double_failure { id := some "1", title := "T" } "h" [] rfl).1

/-- Claim C5, counterexample: the sentinel for a project that carries a reference
id, a contact email and an application link preserves none of them, so the
claimed "identifying metadata (… reference id, contact email, application
link) preserved" fails on the failure branch. -/
theorem c5_metadata_not_preserved_counterexample :
    (match_project_to_cv none none
        { id := some "1", title := "T", company := some "C", reference_id := some "REF-9",
          email := some "contact@x.tn", application_link := "https://apply.x.tn" }
        "h" []).result.reference_id = none
    ∧ (match_project_to_cv none none
        { id := some "1", title := "T", company := some "C", reference_id := some "REF-9",
          email := some "contact@x.tn", application_link := "https://apply.x.tn" }
        "h" []).result.email = none
    ∧ (match_project_to_cv none none
        { id := some "1", title := "T", company := some "C", reference_id := some "REF-9",
          email := some "contact@x.tn", application_link := "https://apply.x.tn" }
        "h" []).result.application_link = none
    ∧ ¬ ((match_project_to_cv none none
        { id := some "1", title := "T", company := some "C", reference_id := some "REF-9",
          email := some "contact@x.tn", application_link := "https://apply.x.tn" }
        "h" []).result.reference_id = some "REF-9") := by
  refine ⟨rfl, rfl, rfl, ?_⟩
  decide

/-- Claim C10: when both backends fail on a cache miss, the cache is left
unchanged — the sentinel is never written — so a repeat invocation for the
same key consults the backends again instead of serving the error. -/
theorem c10_sentinel_never_cached (p : Project) (cvHash : String)
    (cache : MatchCacheState) (g pf : Option RawScore)
    (hmiss : get_cached_match cache cvHash (p.id.getD "") = none) :
    (match_project_to_cv none none p cvHash cache).cache = cache
    ∧ (match_project_to_cv none none p cvHash cache).result.error.isSome = true
    ∧ (match_project_to_cv g pf p cvHash
        ((match_project_to_cv none none p cvHash cache).cache)).backendCalled = true := by
  have hred : match_project_to_cv none none p cvHash cache =
      ⟨sentinelResult p, cache, true⟩ := by
    simp only [match_project_to_cv, hmiss]
  refine ⟨by rw [hred], by rw [hred]; rfl, ?_⟩
  rw [hred]
  simp only [match_project_to_cv, hmiss]
  cases g with
  | some raw => rfl
  | none =>
    cases pf with
    | some raw => rfl
    | none => rfl

/-- Witness for `c10_sentinel_never_cached` at a concrete input. -/
theorem c10_sentinel_never_cached_witness :
    (match_project_to_cv none none { id := some "1", title := "T" } "h" []).cache = [] :=
  (c10_sentinel_never_cached { id := some "1", title := "T" } "h" []
    (some { overall_score := 70 }) none rfl).1

theorem matchLoop_length (g pf : Project → Option RawScore) (cvHash : String) :
    ∀ (candidates : List Project) (cache : MatchCacheState),
      (matchLoop g pf cvHash candidates cache).results.length = candidates.length := by
  intro candidates
  induction candidates with
  | nil => intro cache; rfl
  | cons p rest ih =>
    intro cache
    simp [matchLoop, ih]

/-- Claim C6 (amended): the scoring loop produces exactly one result per candidate
project, and every result that meets the minimum score or carries an error
field appears in the batch output; only error-free results below the
threshold are excluded (by the threshold filter, not silently). -/
theorem c6_results_accounted (g pf : Project → Option RawScore)
    (cvHash : String) (candidates : List Project) (min_score : Int)
    (cache : MatchCacheState) :
    (matchLoop g pf cvHash candidates cache).results.length = candidates.length
    ∧ ∀ r ∈ (matchLoop g pf cvHash candidates cache).results,
        (min_score ≤ r.overall_score ∨ r.error.isSome = true) →
        r ∈ (batch_match_projects g pf cvHash candidates min_score cache).results := by
  refine ⟨matchLoop_length g pf cvHash candidates cache, ?_⟩
  intro r hr hcond
  simp only [batch_match_projects]
  rw [mem_pySortBy, List.mem_filter]
  refine ⟨hr, ?_⟩
  rcases hcond with hge | herr
  · simp [hge]
  · simp [herr]

/-- Witness for `c6_results_accounted`: a both-backends-failed sentinel,
which scores 0 < 50, still appears in the batch output because it carries an
error field. -/
theorem c6_results_accounted_witness :
    sentinelResult { id := some "1", title := "t" } ∈
      (batch_match_projects (fun _ => none) (fun _ => none) "h"
        [{ id := some "1", title := "t" }] 50 []).results :=
  (c6_results_accounted (fun _ => none) (fun _ => none) "h"
      [{ id := some "1", title := "t" }] 50 []).2
    (sentinelResult { id := some "1", title := "t" }) (by decide) (Or.inr (by decide))

/-- Claim C6, counterexample: one candidate is scored (no error, score 40) but the
batch output with threshold 50 is empty — so the output does not contain a
result for every scored candidate, contrary to the claim as stated. -/
theorem c6_below_threshold_dropped_counterexample :
    (matchLoop (fun _ => some { overall_score := 40 }) (fun _ => none) "h"
      [{ id := some "1", title := "t" }] []).results.length = 1
    ∧ (batch_match_projects (fun _ => some { overall_score := 40 }) (fun _ => none) "h"
      [{ id := some "1", title := "t" }] 50 []).results = [] := by
  refine ⟨rfl, ?_⟩
  decide

theorem firstPass_fold_invariant (uuid : Nat → String) :
    ∀ (ps : List Project) (cleaned : List Project) (seen : List String) (ctr : Nat),
      seen = cleaned.map (fun q => q.title) →
      cleaned.Pairwise
        (fun (q r : Project) => ratioSM (lowerStr r.title) (lowerStr q.title) ≤ mkRat 85 100) →
      (ps.foldl (normStep uuid) (cleaned, seen, ctr)).2.1 =
        (ps.foldl (normStep uuid) (cleaned, seen, ctr)).1.map (fun q => q.title)
      ∧ (ps.foldl (normStep uuid) (cleaned, seen, ctr)).1.Pairwise
        (fun (q r : Project) => ratioSM (lowerStr r.title) (lowerStr q.title) ≤ mkRat 85 100) := by
  intro ps
  induction ps with
  | nil =>
    intro cleaned seen ctr hseen hpair
    exact ⟨hseen, hpair⟩
  | cons p ps ih =>
    intro cleaned seen ctr hseen hpair
    rw [List.foldl_cons]
    cases hval : (p.title == "" || p.description == "") with
    | true =>
      have hstep : normStep uuid (cleaned, seen, ctr) p = (cleaned, seen, ctr) := by
        simp [normStep, hval]
      rw [hstep]
      exact ih cleaned seen ctr hseen hpair
    | false =>
      cases hdup : seen.any (fun t => mkRat 85 100 <
          ratioSM (lowerStr (cleanRecord uuid ctr p).title) (lowerStr t)) with
      | true =>
        have hstep : normStep uuid (cleaned, seen, ctr) p = (cleaned, seen, ctr + 1) := by
          simp [normStep, hval, hdup]
        rw [hstep]
        exact ih cleaned seen (ctr + 1) hseen hpair
      | false =>
        have hstep : normStep uuid (cleaned, seen, ctr) p =
            (cleaned ++ [cleanRecord uuid ctr p],
              seen ++ [(cleanRecord uuid ctr p).title], ctr + 1) := by
          simp [normStep, hval, hdup]
        rw [hstep]
        apply ih
        · rw [hseen, List.map_append]
          rfl
        · rw [List.pairwise_append]
          refine ⟨hpair, List.pairwise_singleton _ _, ?_⟩
          intro q hq b hb
          rcases List.mem_singleton.mp hb with rfl
          have hmem : q.title ∈ seen := by
            rw [hseen]
            exact List.mem_map_of_mem _ hq
          refine le_of_not_lt ?_
          intro hlt
          have hany : (seen.any (fun t => mkRat 85 100 <
              ratioSM (lowerStr (cleanRecord uuid ctr p).title) (lowerStr t))) = true :=
            List.any_eq_true.mpr ⟨q.title, hmem, decide_eq_true hlt⟩
          rw [hdup] at hany
          exact Bool.false_ne_true hany

theorem firstPass_append (uuid : Nat → String) (ps : List Project) (p : Project) :
    firstPass uuid (ps ++ [p]) =
      if (p.title == "" || p.description == "") = true then firstPass uuid ps
      else if ((seenTitles uuid ps).any (fun t => mkRat 85 100 <
          ratioSM (lowerStr (cleanRecord uuid (validCount uuid ps) p).title)
            (lowerStr t))) = true
        then firstPass uuid ps
        else firstPass uuid ps ++ [cleanRecord uuid (validCount uuid ps) p] := by
  rw [firstPass, firstPassState, List.foldl_append, List.foldl_cons, List.foldl_nil]
  cases hval : (p.title == "" || p.description == "") with
  | true => simp [normStep, hval, firstPass, firstPassState]
  | false =>
    cases hdup : ((seenTitles uuid ps).any (fun t => mkRat 85 100 <
        ratioSM (lowerStr (cleanRecord uuid (validCount uuid ps) p).title)
          (lowerStr t))) with
    | true =>
      rw [seenTitles, firstPassState, validCount, firstPassState] at hdup
      simp [normStep, hval, hdup, firstPass, firstPassState, seenTitles, validCount]
    | false =>
      rw [seenTitles, firstPassState, validCount, firstPassState] at hdup
      simp [normStep, hval, hdup, firstPass, firstPassState, seenTitles, validCount]

/-- Claim C7: the first pass discards exactly the records whose trimmed lowercased
title has SequenceMatcher ratio above 0.85 with some previously accepted
title, keeping the first-seen record.  Conjunct 1: soundness — accepted
records are pairwise dissimilar (every later accepted record's title has
ratio ≤ 0.85 against every earlier one).  Conjunct 2: the exact
accept/discard rule, as an append characterization.  Conjunct 3: the spec's
trailing-whitespace scenario collapses to the first record. -/
theorem c7_dedup_by_title_similarity :
    (∀ (uuid : Nat → String) (ps : List Project),
      (firstPass uuid ps).Pairwise
        (fun (q r : Project) => ratioSM (lowerStr r.title) (lowerStr q.title) ≤ mkRat 85 100))
    ∧ (∀ (uuid : Nat → String) (ps : List Project) (p : Project),
        firstPass uuid (ps ++ [p]) =
          if (p.title == "" || p.description == "") = true then firstPass uuid ps
          else if ((seenTitles uuid ps).any (fun t => mkRat 85 100 <
              ratioSM (lowerStr (cleanRecord uuid (validCount uuid ps) p).title)
                (lowerStr t))) = true
            then firstPass uuid ps
            else firstPass uuid ps ++ [cleanRecord uuid (validCount uuid ps) p])
    ∧ normalize_projects (fun n => toString n)
        [{ title := "Backend Engineering Internship", description := "d1" },
         { title := "Backend Engineering Internship ", description := "d2" }] =
      [{ id := some "0", title := "Backend Engineering Internship", description := "d1" }] := by
  refine ⟨?_, firstPass_append, ?_⟩
  · intro uuid ps
    exact (firstPass_fold_invariant uuid ps [] [] 0 rfl List.Pairwise.nil).2
  · decide

/-- Claim C8: when some accepted record carries a portal-vocabulary link, the
second pass back-fills that link into every record whose link is empty,
marks its method as `link` and attaches the provenance note, leaving every
record that already had a link untouched; plus the spec's three-project
scenario. -/
theorem c8_portal_link_propagation :
    (∀ (uuid : Nat → String) (ps : List Project) (l : String),
      portalLink (firstPass uuid ps) = some l →
        normalize_projects uuid ps = (firstPass uuid ps).map (backfill l)
        ∧ ∀ p ∈ firstPass uuid ps,
            (p.application_link = "" →
              backfill l p =
                { p with application_link := l,
                         application_method := some "link",
                         note := some "Inferred from global context" })
            ∧ (p.application_link ≠ "" → backfill l p = p))
    ∧ normalize_projects (fun n => toString n)
        [{ title := "Frontend Internship", description := "da" },
         { title := "Backend API", description := "db",
           application_link := "https://stages.example.fr" },
         { title := "Data Research", description := "dc" }] =
      [{ id := some "0", title := "Frontend Internship", description := "da",
         application_link := "https://stages.example.fr",
         application_method := some "link",
         note := some "Inferred from global context" },
       { id := some "1", title := "Backend API", description := "db",
         application_link := "https://stages.example.fr" },
       { id := some "2", title := "Data Research", description := "dc",
         application_link := "https://stages.example.fr",
         application_method := some "link",
         note := some "Inferred from global context" }] := by
  constructor
  · intro uuid ps l hl
    constructor
    · rw [normalize_projects, propagate, hl]
    · intro p _
      constructor
      · intro h
        rw [backfill, if_pos (beq_iff_eq.mpr h)]
      · intro h
        rw [backfill, if_neg]
        intro hc
        exact h (beq_iff_eq.mp hc)
  · decide

/-- Witness for `c8_portal_link_propagation` at the spec's scenario. -/
theorem c8_portal_link_propagation_witness :
    portalLink (firstPass (fun n => toString n)
        [{ title := "Frontend Internship", description := "da" },
         { title := "Backend API", description := "db",
           application_link := "https://stages.example.fr" },
         { title := "Data Research", description := "dc" }]) =
      some "https://stages.example.fr"
    ∧ normalize_projects (fun n => toString n)
        [{ title := "Frontend Internship", description := "da" },
         { title := "Backend API", description := "db",
           application_link := "https://stages.example.fr" },
         { title := "Data Research", description := "dc" }] =
      (firstPass (fun n => toString n)
        [{ title := "Frontend Internship", description := "da" },
         { title := "Backend API", description := "db",
           application_link := "https://stages.example.fr" },
         { title := "Data Research", description := "dc" }]).map
        (backfill "https://stages.example.fr") :=
  ⟨by decide,
    (c8_portal_link_propagation.1 (fun n => toString n)
      [{ title := "Frontend Internship", description := "da" },
       { title := "Backend API", description := "db",
         application_link := "https://stages.example.fr" },
       { title := "Data Research", description := "dc" }]
      "https://stages.example.fr" (by decide)).1⟩

theorem isPrefixOf_self_append {α : Type} [BEq α] [LawfulBEq α] (l1 l2 : List α) :
    l1.isPrefixOf (l1 ++ l2) = true := by
  induction l1 with
  | nil => simp [List.isPrefixOf]
  | cons x xs ih => simp [List.isPrefixOf, ih]

theorem storagePath_hashFiles (h n : String) :
    ((shardDir h ++ h).data.isPrefixOf (storagePath h n).data) = true := by
  rw [storagePath, String.data_append]
  exact isPrefixOf_self_append _ _

/-- Claim C9: content-addressed deduplication of `save_file`.  From a state with no
record and no file for the content's hash, two saves of the same bytes —
under any original names — return the same fresh document id and leave
exactly one physical file for that hash; and a save whose byte write fails
never inserts a record (the insert is reached only after a successful
write). -/
theorem c9_save_file_dedup :
    (∀ (hashFn : Bytes → String) (s : StoreState) (b : Bytes) (n1 n2 t1 t2 : String),
      recordsForHash s (hashFn b) = [] →
      filesForHash s (hashFn b) = [] →
        (save_file hashFn true s b n1 t1).1 = some s.nextId
        ∧ (save_file hashFn true (save_file hashFn true s b n1 t1).2 b n2 t2).1 = some s.nextId
        ∧ (filesForHash (save_file hashFn true (save_file hashFn true s b n1 t1).2 b n2 t2).2
            (hashFn b)).length = 1)
    ∧ (∀ (hashFn : Bytes → String) (s : StoreState) (b : Bytes) (n t : String),
        (save_file hashFn false s b n t).2.records = s.records) := by
  constructor
  · intro hashFn s b n1 n2 t1 t2 hrec hfile
    have hfind1 : s.records.find? (fun r => r.file_hash == hashFn b) = none := by
      rw [List.find?_eq_none]
      intro r hr
      exact List.filter_eq_nil_iff.mp hrec r hr
    have hpre1 := storagePath_hashFiles (hashFn b) n1
    have hpre1' : ((shardDir (hashFn b)).data ++ (hashFn b).data).isPrefixOf
        (storagePath (hashFn b) n1).data = true := by
      rw [← String.data_append]
      exact hpre1
    have hnotmem : ¬ storagePath (hashFn b) n1 ∈ s.disk := by
      intro hmem
      have hin : storagePath (hashFn b) n1 ∈ filesForHash s (hashFn b) := by
        rw [filesForHash, List.mem_filter]
        exact ⟨hmem, hpre1⟩
      rw [hfile] at hin
      exact List.not_mem_nil _ hin
    have hs1 : save_file hashFn true s b n1 t1 =
        (some s.nextId,
          ⟨s.nextId + 1,
            s.records ++ [(⟨s.nextId, hashFn b, n1, storagePath (hashFn b) n1, t1⟩ : DocRecord)],
            s.disk ++ [storagePath (hashFn b) n1]⟩) := by
      simp only [save_file, hfind1, if_neg hnotmem, if_pos]
    have hfind2 :
        (s.records ++ [(⟨s.nextId, hashFn b, n1, storagePath (hashFn b) n1, t1⟩ : DocRecord)]).find?
          (fun r => r.file_hash == hashFn b) =
        some (⟨s.nextId, hashFn b, n1, storagePath (hashFn b) n1, t1⟩ : DocRecord) := by
      rw [List.find?_append, hfind1, Option.none_or]
      simp [List.find?]
    have hs2 : save_file hashFn true (save_file hashFn true s b n1 t1).2 b n2 t2 =
        (some s.nextId, (save_file hashFn true s b n1 t1).2) := by
      rw [hs1]
      simp only [save_file, hfind2]
    refine ⟨by rw [hs1], by rw [hs2, hs1], ?_⟩
    rw [hs2, hs1]
    show (filesForHash
      ⟨s.nextId + 1,
        s.records ++ [(⟨s.nextId, hashFn b, n1, storagePath (hashFn b) n1, t1⟩ : DocRecord)],
        s.disk ++ [storagePath (hashFn b) n1]⟩ (hashFn b)).length = 1
    rw [filesForHash] at hfile ⊢
    rw [List.filter_append, hfile, List.nil_append]
    simp [List.filter, hpre1, hpre1']
  · intro hashFn s b n t
    cases hfind : s.records.find? (fun r => r.file_hash == hashFn b) with
    | some r => simp [save_file, hfind]
    | none => simp [save_file, hfind]

/-- Witness for `c9_save_file_dedup` at a concrete store and byte string. -/
theorem c9_save_file_dedup_witness :
    (save_file (fun _ => "abcdef12") true ⟨0, [], []⟩ [65, 66, 67] "a.pdf" "cv").1 = some 0
    ∧ (save_file (fun _ => "abcdef12") true
        (save_file (fun _ => "abcdef12") true ⟨0, [], []⟩ [65, 66, 67] "a.pdf" "cv").2
        [65, 66, 67] "b.pdf" "cv").1 = some 0
    ∧ (filesForHash (save_file (fun _ => "abcdef12") true
        (save_file (fun _ => "abcdef12") true ⟨0, [], []⟩ [65, 66, 67] "a.pdf" "cv").2
        [65, 66, 67] "b.pdf" "cv").2 "abcdef12").length = 1 :=
  c9_save_file_dedup.1 (fun _ => "abcdef12") ⟨0, [], []⟩ [65, 66, 67]
    "a.pdf" "b.pdf" "cv" "cv" rfl rfl
